import Mathlib

/-!
Verification of the stock-simulator charting component (src/App.tsx).

The source is a React single-file app. All arithmetic is embedded over ℚ
(the JavaScript numbers in play are decimal literals and ratios; ℚ models
them exactly). Division in ℚ totalizes x / 0 = 0. JavaScript constructs
are embedded as follows:

* `arr.at(-k)` / `arr[i]` : `jsAt` / `jsIndex` (negative or out-of-range
  indices yield `none`, mirroring `undefined`);
* `a ?? b` : a `match` on the `Option`;
* `Math.min(...xs)` / `Math.max(...xs)` : `mathMin` / `mathMax` (the
  empty-list value is never reached where the source uses them);
* `Math.round` : `jsRound q = ⌊q + 1/2⌋`, which agrees with
  JavaScript rounding on all inputs arising here;
* `x || 1` at `priceRange` : a zero test;
* React `useState` in `StockChart` : explicit state of type `Option ℤ`
  threaded through the event handlers. React preserves `useState` state
  across re-renders of a mounted component, so a re-render with a new
  `data` prop leaves `hoverIndex` unchanged; this is `rerenderHover`.
-/

namespace StockSim

/-- One trading day bar (`StockPoint` in the source). The `open` field is
renamed `open_` because `open` is a Lean keyword. -/
structure StockPoint where
  date : String
  open_ : ℚ
  high : ℚ
  low : ℚ
  close : ℚ
  volume : ℚ
  deriving Repr, DecidableEq

/-- Ticker plus ordered bar sequence (`StockData` in the source). -/
structure StockData where
  ticker : String
  data : List StockPoint
  deriving Repr, DecidableEq

/-- The enumerated range keys (`RangeKey` in the source). -/
inductive RangeKey where
  | D1 | D2 | D5 | D10 | M1 | M3 | M6 | Y1 | MAX
  deriving Repr, DecidableEq

/-- `RANGE_MAP`: `some n` is a finite bar count, `none` is the sentinel
`'ALL'` (entire series). -/
def RANGE_MAP : RangeKey → Option ℕ
  | .D1 => some 1
  | .D2 => some 2
  | .D5 => some 5
  | .D10 => some 10
  | .M1 => some 22
  | .M3 => some 66
  | .M6 => none
  | .Y1 => none
  | .MAX => none

/-- `Array.prototype.at`: a negative index counts from the end, and an
index that is still out of range yields `undefined` (`none`). -/
def jsAt (l : List α) (i : ℤ) : Option α :=
  let j := if i < 0 then i + l.length else i
  if 0 ≤ j then l[j.toNat]? else none

/-- JavaScript bracket indexing `arr[i]` for an integer index: negative or
out-of-range indices yield `undefined` (`none`). -/
def jsIndex (l : List α) (i : ℤ) : Option α :=
  if i < 0 then none else l[i.toNat]?

/-- `Math.min(...xs)` on a non-empty list; the empty-list value is a junk
default (the source never evaluates it on an empty window). -/
def mathMin : List ℚ → ℚ
  | [] => 0
  | x :: xs => xs.foldl min x

/-- `Math.max(...xs)` on a non-empty list; the empty-list value is a junk
default (the source never evaluates it on an empty window). -/
def mathMax : List ℚ → ℚ
  | [] => 0
  | x :: xs => xs.foldl max x

/-- `Math.round` as it acts on the values arising here: round half up. -/
def jsRound (q : ℚ) : ℤ := ⌊q + 1 / 2⌋

/-! ### Window selection (`filteredData`, App.tsx lines 213 to 220) -/

/-- `filteredData`: `[]` when `stockData` is `null`; the whole series for
the `'ALL'` sentinel; otherwise `data.slice(-n)`, which is `drop (L - n)`. -/
def filteredData (stockData : Option StockData) (selectedRange : RangeKey) :
    List StockPoint :=
  match stockData with
  | none => []
  | some sd =>
    match RANGE_MAP selectedRange with
    | none => sd.data
    | some n => sd.data.drop (sd.data.length - n)

/-- The full, unwindowed bar sequence behind `stockData?.data` (empty when
`stockData` is `null`). -/
def fullData (stockData : Option StockData) : List StockPoint :=
  match stockData with
  | none => []
  | some sd => sd.data

/-! ### Derived metrics (App.tsx lines 222 to 238) -/

/-- `latestPoint = filteredData.at(-1) ?? stockData?.data.at(-1)`. -/
def latestPoint (stockData : Option StockData) (selectedRange : RangeKey) :
    Option StockPoint :=
  match jsAt (filteredData stockData selectedRange) (-1) with
  | some p => some p
  | none => jsAt (fullData stockData) (-1)

/-- `previousPoint = stockData?.data.at(-2)`: note it reads the full
series, not the window, and takes no range argument at all. -/
def previousPoint (stockData : Option StockData) : Option StockPoint :=
  jsAt (fullData stockData) (-2)

/-- `currentPrice = latestPoint?.close ?? 0`. -/
def currentPrice (stockData : Option StockData) (selectedRange : RangeKey) : ℚ :=
  match latestPoint stockData selectedRange with
  | some p => p.close
  | none => 0

/-- `previousClose = previousPoint?.close ?? currentPrice`. -/
def previousClose (stockData : Option StockData) (selectedRange : RangeKey) : ℚ :=
  match previousPoint stockData with
  | some p => p.close
  | none => currentPrice stockData selectedRange

/-- `priceChange = currentPrice - previousClose`. -/
def priceChange (stockData : Option StockData) (selectedRange : RangeKey) : ℚ :=
  currentPrice stockData selectedRange - previousClose stockData selectedRange

/-- `priceChangePercent = previousClose ? (priceChange / previousClose) * 100 : 0`
(`previousClose` is truthy exactly when it is non-zero in ℚ). -/
def priceChangePercent (stockData : Option StockData) (selectedRange : RangeKey) : ℚ :=
  if previousClose stockData selectedRange ≠ 0 then
    priceChange stockData selectedRange / previousClose stockData selectedRange * 100
  else 0

/-- `averageVolume`: `0` for an empty window, else
`reduce((sum, point) => sum + point.volume, 0) / length`. -/
def averageVolume (filtered : List StockPoint) : ℚ :=
  if filtered.length = 0 then 0
  else filtered.foldl (fun sum point => sum + point.volume) 0 / filtered.length

/-- `slope`: `0` for a window shorter than 2 bars, else
`(last - first) / first * 100` over the window boundary closes. The
division is unguarded in the source; in this ℚ embedding a division by a
zero first close yields the junk value 0 (JavaScript would yield an
infinity or NaN). -/
def slope (filtered : List StockPoint) : ℚ :=
  if h : filtered.length < 2 then 0
  else
    let first := (filtered.get ⟨0, by omega⟩).close
    let last := (filtered.get ⟨filtered.length - 1, by omega⟩).close
    (last - first) / first * 100

/-- The `Indicator` component classification:
`slope > 0.2 ? 'Bullish' : slope < -0.2 ? 'Bearish' : 'Neutral'`. -/
def trend (slope : ℚ) : String :=
  if slope > 0.2 then "Bullish"
  else if slope < -0.2 then "Bearish"
  else "Neutral"

/-! ### Chart projection (`StockChart`, App.tsx lines 57 to 108) -/

/-- The fixed logical canvas inset `padding = 16`. -/
def padding : ℚ := 16

/-- The fixed logical canvas width `width = 640`. -/
def width : ℚ := 640

/-- The fixed logical canvas height `height = 280`. -/
def height : ℚ := 280

/-- `minPrice = Math.min(...data.map((d) => d.low))`. -/
def minPrice (data : List StockPoint) : ℚ :=
  mathMin (data.map (fun d => d.low))

/-- `maxPrice = Math.max(...data.map((d) => d.high))`. -/
def maxPrice (data : List StockPoint) : ℚ :=
  mathMax (data.map (fun d => d.high))

/-- `priceRange = maxPrice - minPrice || 1` (the substitution fires exactly
when the difference is 0, the only falsy ℚ value). -/
def priceRange (data : List StockPoint) : ℚ :=
  if maxPrice data - minPrice data = 0 then 1 else maxPrice data - minPrice data

/-- A projected plot point: canvas coordinates plus the source bar. -/
structure PlotPoint where
  x : ℚ
  y : ℚ
  point : StockPoint
  deriving Repr, DecidableEq

/-- The body of the `chartPoints` map for index `index` and bar `point`. -/
def projectPoint (data : List StockPoint) (index : ℕ) (point : StockPoint) :
    PlotPoint :=
  { x := padding + ((index : ℚ) / max 1 ((data.length : ℚ) - 1)) * (width - padding * 2)
    y := height - padding -
      ((point.close - minPrice data) / priceRange data) * (height - padding * 2)
    point := point }

/-- `chartPoints = data.map((point, index) => ...)`. -/
def chartPoints (data : List StockPoint) : List PlotPoint :=
  data.mapIdx (fun index point => projectPoint data index point)

/-! ### Hover state and hit-testing (App.tsx lines 75 to 108) -/

/-- `useState<number | null>(null)`: the initial hover state. -/
def initialHoverState : Option ℤ := none

/-- The index computed by `handleMouseMove` from the scaled pointer x
(`pointerX = (event.clientX - bounds.left) * scaleX`):
`ratio = (pointerX - padding) / (width - padding * 2)`, clamped to `[0, 1]`,
then `Math.round(clampedRatio * (chartPoints.length - 1))`. -/
def hitIndex (n : ℕ) (pointerX : ℚ) : ℤ :=
  let r := (pointerX - padding) / (width - padding * 2)
  let clamped := min 1 (max 0 r)
  jsRound (clamped * ((n : ℚ) - 1))

/-- `handleMouseMove`: returns early (state unchanged) when there are no
chart points, else sets the hover state to the hit-tested index. -/
def handleMouseMove (data : List StockPoint) (pointerX : ℚ) (st : Option ℤ) :
    Option ℤ :=
  if (chartPoints data).length = 0 then st
  else some (hitIndex (chartPoints data).length pointerX)

/-- `handleMouseLeave`: `setHoverIndex(null)`. -/
def handleMouseLeave (_st : Option ℤ) : Option ℤ := none

/-- A re-render of the mounted `StockChart` with a new `data` prop (range
switch or series replacement). React keeps `useState` state across
re-renders of a mounted component, and nothing in the source resets
`hoverIndex` when `data` changes, so the hover state is carried over
unchanged. -/
def rerenderHover (_newData : List StockPoint) (st : Option ℤ) : Option ℤ := st

/-- `hoveredPoint = hoverIndex !== null ? chartPoints[hoverIndex] : null`. -/
def hoveredPoint (data : List StockPoint) (hoverIndex : Option ℤ) :
    Option PlotPoint :=
  match hoverIndex with
  | none => none
  | some i => jsIndex (chartPoints data) i

/-- The tooltip placement record. `dateLabel` keeps the raw date string
(locale formatting is outside the core). -/
structure TooltipConf where
  tooltipX : ℚ
  tooltipY : ℚ
  tooltipWidth : ℚ
  tooltipHeight : ℚ
  dateLabel : String
  deriving Repr, DecidableEq

/-- `tooltipConfig`: `null` when there is no hovered point; otherwise the
x-centered, clamped, above-or-flipped-below placement. -/
def tooltipConfig (data : List StockPoint) (hoverIndex : Option ℤ) :
    Option TooltipConf :=
  match hoveredPoint data hoverIndex with
  | none => none
  | some hp =>
    let tooltipWidth : ℚ := 180
    let tooltipHeight : ℚ := 70
    let tooltipX := max padding (min (hp.x - tooltipWidth / 2) (width - padding - tooltipWidth))
    let ty := hp.y - tooltipHeight - 12
    let tooltipY := if ty < padding then hp.y + 12 else ty
    some ⟨tooltipX, tooltipY, tooltipWidth, tooltipHeight, hp.point.date⟩

/-- The hover overlay geometry the render emits (vertical line, dot and
tooltip, App.tsx lines 138 to 172). -/
structure HoverGeom where
  lineX : ℚ
  lineY1 : ℚ
  lineY2 : ℚ
  dotX : ℚ
  dotY : ℚ
  dotR : ℚ
  tooltip : TooltipConf
  deriving Repr, DecidableEq

/-- The render emits hover geometry only under the guard
`hoveredPoint && tooltipConfig`. -/
def hoverGeometry (data : List StockPoint) (hoverIndex : Option ℤ) :
    Option HoverGeom :=
  match hoveredPoint data hoverIndex, tooltipConfig data hoverIndex with
  | some hp, some tc =>
    some ⟨hp.x, padding, height - padding, hp.x, hp.y, 5, tc⟩
  | _, _ => none

/-! ### Helper lemmas -/

theorem foldl_add_volume (l : List StockPoint) (a : ℚ) :
    l.foldl (fun sum point => sum + point.volume) a =
      a + (l.map (fun p => p.volume)).sum := by
  induction l generalizing a with
  | nil => simp
  | cons p t ih => simp [ih, add_assoc]

theorem foldl_min_le_self (l : List ℚ) (a : ℚ) : l.foldl min a ≤ a := by
  induction l generalizing a with
  | nil => simp
  | cons x t ih => exact le_trans (ih (min a x)) (min_le_left a x)

theorem foldl_min_le_mem (l : List ℚ) (a x : ℚ) (hx : x ∈ l) :
    l.foldl min a ≤ x := by
  induction l generalizing a with
  | nil => simp at hx
  | cons y t ih =>
    rcases List.mem_cons.mp hx with h | h
    · subst h
      exact le_trans (foldl_min_le_self t (min a x)) (min_le_right a x)
    · exact ih (min a y) h

theorem le_foldl_min (l : List ℚ) (a c : ℚ) (ha : c ≤ a)
    (hl : ∀ x ∈ l, c ≤ x) : c ≤ l.foldl min a := by
  induction l generalizing a with
  | nil => simpa using ha
  | cons y t ih =>
    exact ih (min a y) (le_min ha (hl y (List.mem_cons_self y t)))
      (fun x hx => hl x (List.mem_cons_of_mem y hx))

theorem self_le_foldl_max (l : List ℚ) (a : ℚ) : a ≤ l.foldl max a := by
  induction l generalizing a with
  | nil => simp
  | cons x t ih => exact le_trans (le_max_left a x) (ih (max a x))

theorem mem_le_foldl_max (l : List ℚ) (a x : ℚ) (hx : x ∈ l) :
    x ≤ l.foldl max a := by
  induction l generalizing a with
  | nil => simp at hx
  | cons y t ih =>
    rcases List.mem_cons.mp hx with h | h
    · subst h
      exact le_trans (le_max_right a x) (self_le_foldl_max t (max a x))
    · exact ih (max a y) h

theorem foldl_max_le (l : List ℚ) (a c : ℚ) (ha : a ≤ c)
    (hl : ∀ x ∈ l, x ≤ c) : l.foldl max a ≤ c := by
  induction l generalizing a with
  | nil => simpa using ha
  | cons y t ih =>
    exact ih (max a y) (max_le ha (hl y (List.mem_cons_self y t)))
      (fun x hx => hl x (List.mem_cons_of_mem y hx))

theorem mathMin_le_mem (l : List ℚ) (x : ℚ) (hx : x ∈ l) : mathMin l ≤ x := by
  cases l with
  | nil => simp at hx
  | cons y t =>
    rcases List.mem_cons.mp hx with h | h
    · subst h; exact foldl_min_le_self t x
    · exact foldl_min_le_mem t y x h

theorem mem_le_mathMax (l : List ℚ) (x : ℚ) (hx : x ∈ l) : x ≤ mathMax l := by
  cases l with
  | nil => simp at hx
  | cons y t =>
    rcases List.mem_cons.mp hx with h | h
    · subst h; exact self_le_foldl_max t x
    · exact mem_le_foldl_max t y x h

theorem le_mathMin (l : List ℚ) (c : ℚ) (hne : l ≠ [])
    (hl : ∀ x ∈ l, c ≤ x) : c ≤ mathMin l := by
  cases l with
  | nil => exact absurd rfl hne
  | cons y t =>
    exact le_foldl_min t y c (hl y (List.mem_cons_self y t))
      (fun x hx => hl x (List.mem_cons_of_mem y hx))

theorem mathMax_le (l : List ℚ) (c : ℚ) (hne : l ≠ [])
    (hl : ∀ x ∈ l, x ≤ c) : mathMax l ≤ c := by
  cases l with
  | nil => exact absurd rfl hne
  | cons y t =>
    exact foldl_max_le t y c (hl y (List.mem_cons_self y t))
      (fun x hx => hl x (List.mem_cons_of_mem y hx))

theorem chartPoints_length (data : List StockPoint) :
    (chartPoints data).length = data.length := by
  simp [chartPoints]

theorem chartPoints_getElem? (data : List StockPoint) (i : ℕ) :
    (chartPoints data)[i]? = data[i]?.map (projectPoint data i) :=
  List.getElem?_mapIdx ..

theorem jsAt_neg_one (l : List α) : jsAt l (-1) = l.getLast? := by
  unfold jsAt
  cases l with
  | nil => simp
  | cons y t =>
    have h1 : (0 : ℤ) ≤ -1 + (y :: t).length := by
      simp
    simp only [List.getLast?_eq_getElem? (y :: t)]
    have h2 : ((-1 : ℤ) + (y :: t).length).toNat = (y :: t).length - 1 := by
      simp
    simp [h1, h2]

theorem jsAt_neg_two (l : List α) :
    jsAt l (-2) = if l.length < 2 then none else l[l.length - 2]? := by
  unfold jsAt
  by_cases h : l.length < 2
  · rcases l with _ | ⟨a, _ | ⟨b, t⟩⟩
    · simp
    · simp
    · simp at h; omega
  · have h1 : (0 : ℤ) ≤ -2 + l.length := by
      push_neg at h
      have : (2 : ℤ) ≤ l.length := by exact_mod_cast h
      omega
    have h2 : ((-2 : ℤ) + l.length).toNat = l.length - 2 := by
      push_neg at h
      have : (2 : ℤ) ≤ l.length := by exact_mod_cast h
      omega
    simp [h, h1, h2]

/-- A bar whose only non-zero numeric field is its volume; used to build
concrete test windows. -/
def mkVolBar (volume : ℚ) : StockPoint := ⟨"", 0, 0, 0, 0, volume⟩

/-- A bar whose only non-zero numeric field is its close; used to build
concrete test windows. -/
def mkCloseBar (close : ℚ) : StockPoint := ⟨"", 0, 0, 0, close, 0⟩

/-! ### Claim theorems -/

/-- C5: window selection. For a Series of length `L`: a range key mapping
to a finite bar count `n` selects a window of length `min L n` that is a
suffix of the series (so it is the last `min L n` bars in order); the
entire-series sentinel keys (6M, 1Y, MAX) select the full series
unchanged; and for an empty series the window is empty for every key. -/
theorem window_selection_spec :
    ∀ (ticker : String) (data : List StockPoint) (key : RangeKey),
    (∀ n, RANGE_MAP key = some n →
      (filteredData (some ⟨ticker, data⟩) key).length = min data.length n ∧
      filteredData (some ⟨ticker, data⟩) key <:+ data) ∧
    (RANGE_MAP key = none → filteredData (some ⟨ticker, data⟩) key = data) ∧
    (data = [] → filteredData (some ⟨ticker, data⟩) key = []) ∧
    RANGE_MAP RangeKey.M6 = none ∧ RANGE_MAP RangeKey.Y1 = none ∧
    RANGE_MAP RangeKey.MAX = none := by
  intro ticker data key
  refine ⟨fun n hn => ⟨?_, ?_⟩, fun hn => ?_, fun hd => ?_, rfl, rfl, rfl⟩
  · simp only [filteredData, hn, List.length_drop]
    omega
  · simp only [filteredData, hn]
    exact List.drop_suffix _ _
  · simp only [filteredData, hn]
  · subst hd
    cases hr : RANGE_MAP key <;> simp [filteredData, hr]

theorem window_selection_spec_witness :
    (filteredData (some ⟨"ONE", [mkCloseBar 10, mkCloseBar 12, mkCloseBar 9]⟩)
        RangeKey.D2).length =
      min [mkCloseBar 10, mkCloseBar 12, mkCloseBar 9].length 2 ∧
    filteredData (some ⟨"ONE", [mkCloseBar 10, mkCloseBar 12, mkCloseBar 9]⟩)
        RangeKey.MAX =
      [mkCloseBar 10, mkCloseBar 12, mkCloseBar 9] :=
  ⟨((window_selection_spec "ONE" _ RangeKey.D2).1 2 rfl).1,
   (window_selection_spec "ONE" _ RangeKey.MAX).2.1 rfl⟩

/-- C6: momentum slope. A window shorter than 2 bars has slope 0;
otherwise the slope is `(lastClose - firstClose) / firstClose * 100` over
the window boundary bars, with no guard on `firstClose = 0` (the final
conjunct evaluates the unguarded formula on a window whose first close is
0; in this ℚ embedding the division then yields the junk value 0, where
JavaScript would yield an infinity). -/
theorem momentum_slope_spec : ∀ filtered : List StockPoint,
    (filtered.length < 2 → slope filtered = 0) ∧
    (∀ h : 2 ≤ filtered.length,
      slope filtered =
        ((filtered.get ⟨filtered.length - 1, by omega⟩).close -
            (filtered.get ⟨0, by omega⟩).close) /
          (filtered.get ⟨0, by omega⟩).close * 100) ∧
    slope [mkCloseBar 0, mkCloseBar 5] = (5 - 0) / 0 * 100 := by
  intro filtered
  refine ⟨fun h => ?_, fun h => ?_, ?_⟩
  · simp [slope, h]
  · have hlen : ¬ filtered.length < 2 := by omega
    simp [slope, hlen]
  · simp [slope, mkCloseBar]

theorem momentum_slope_spec_witness :
    slope [mkCloseBar 10] = 0 ∧
    slope [mkCloseBar 10, mkCloseBar 12, mkCloseBar 9] =
      (([mkCloseBar 10, mkCloseBar 12, mkCloseBar 9].get ⟨2, by decide⟩).close -
          ([mkCloseBar 10, mkCloseBar 12, mkCloseBar 9].get ⟨0, by decide⟩).close) /
        ([mkCloseBar 10, mkCloseBar 12, mkCloseBar 9].get ⟨0, by decide⟩).close *
        100 :=
  ⟨(momentum_slope_spec [mkCloseBar 10]).1 (by simp),
   (momentum_slope_spec [mkCloseBar 10, mkCloseBar 12, mkCloseBar 9]).2.1
      (by simp)⟩

/-- C7: sentiment classification is a pure function of the slope value:
`slope > 0.2` yields Bullish, `slope < -0.2` yields Bearish, everything in
between yields Neutral, and the boundary values `0.2` and `-0.2` exactly
yield Neutral (the comparisons are strict). -/
theorem sentiment_classification_spec : ∀ s : ℚ,
    (s > 0.2 → trend s = "Bullish") ∧
    (s < -0.2 → trend s = "Bearish") ∧
    (-0.2 ≤ s → s ≤ 0.2 → trend s = "Neutral") ∧
    trend 0.2 = "Neutral" ∧ trend (-0.2) = "Neutral" := by
  intro s
  unfold trend
  refine ⟨fun h => ?_, fun h => ?_, fun h1 h2 => ?_, ?_, ?_⟩
  · rw [if_pos h]
  · rw [if_neg (by linarith), if_pos h]
  · rw [if_neg (by linarith), if_neg (by linarith)]
  · norm_num
  · norm_num

theorem sentiment_classification_spec_witness :
    trend 5 = "Bullish" ∧ trend (-5) = "Bearish" ∧ trend 0 = "Neutral" :=
  ⟨(sentiment_classification_spec 5).1 (by norm_num),
   (sentiment_classification_spec (-5)).2.1 (by norm_num),
   (sentiment_classification_spec 0).2.2.1 (by norm_num) (by norm_num)⟩

/-- C8: average volume is the arithmetic mean of the volume field over the
bars of the current window only (the function consumes nothing but the
window), it is 0 for an empty window, and the window with volumes
`[100, 200, 300]` averages to 200. -/
theorem average_volume_spec : ∀ filtered : List StockPoint,
    (filtered = [] → averageVolume filtered = 0) ∧
    (filtered ≠ [] →
      averageVolume filtered =
        (filtered.map (fun p => p.volume)).sum / filtered.length) ∧
    averageVolume [mkVolBar 100, mkVolBar 200, mkVolBar 300] = 200 := by
  intro filtered
  refine ⟨fun h => by simp [h, averageVolume], fun h => ?_, ?_⟩
  · have hl : filtered.length ≠ 0 := by
      simpa [List.length_eq_zero] using h
    simp [averageVolume, hl, foldl_add_volume]
  · norm_num [averageVolume, foldl_add_volume, mkVolBar]

theorem average_volume_spec_witness :
    averageVolume ([] : List StockPoint) = 0 ∧
    averageVolume [mkVolBar 100, mkVolBar 200, mkVolBar 300] =
      (([mkVolBar 100, mkVolBar 200, mkVolBar 300] : List StockPoint).map
          (fun p => p.volume)).sum /
        ([mkVolBar 100, mkVolBar 200, mkVolBar 300] : List StockPoint).length :=
  ⟨(average_volume_spec []).1 rfl,
   (average_volume_spec _).2.1 (by simp)⟩

/-- The concrete three-bar series of the scenario in the spec (closes
10, 12, 9), used as input for witnesses. -/
def oneData : Option StockData :=
  some ⟨"ONE", [mkCloseBar 10, mkCloseBar 12, mkCloseBar 9]⟩

/-- C1: latest/previous close delta. The latest bar is the last bar of the
window when the window is non-empty, else the last bar of the full series,
and the price defaults to 0 when neither exists; the previous bar is
always the second-to-last bar of the full, unwindowed series (the
definition of `previousPoint` takes no range argument at all, so it is
independent of the selected range); the change is
`latest.close - previous.close` and 0 when there is no previous bar; the
percent change is `change / previous.close * 100` when the previous close
is non-zero and 0 otherwise. -/
theorem latest_previous_delta_spec :
    ∀ (stockData : Option StockData) (key : RangeKey),
    (filteredData stockData key ≠ [] →
      latestPoint stockData key = (filteredData stockData key).getLast?) ∧
    (filteredData stockData key = [] →
      latestPoint stockData key = (fullData stockData).getLast?) ∧
    (latestPoint stockData key = none → currentPrice stockData key = 0) ∧
    (∀ p, latestPoint stockData key = some p →
      currentPrice stockData key = p.close) ∧
    (2 ≤ (fullData stockData).length →
      previousPoint stockData =
        (fullData stockData)[(fullData stockData).length - 2]?) ∧
    ((fullData stockData).length < 2 →
      previousPoint stockData = none ∧ priceChange stockData key = 0 ∧
      priceChangePercent stockData key = 0) ∧
    (∀ p, previousPoint stockData = some p →
      priceChange stockData key = currentPrice stockData key - p.close ∧
      (p.close ≠ 0 →
        priceChangePercent stockData key =
          (currentPrice stockData key - p.close) / p.close * 100) ∧
      (p.close = 0 → priceChangePercent stockData key = 0)) := by
  intro stockData key
  refine ⟨fun hw => ?_, fun hw => ?_, fun hl => ?_, fun p hl => ?_,
    fun h2 => ?_, fun h2 => ?_, fun p hp => ?_⟩
  · cases hlast : (filteredData stockData key).getLast? with
    | some p => simp [latestPoint, jsAt_neg_one, hlast]
    | none => exact absurd (List.getLast?_eq_none_iff.mp hlast) hw
  · simp [latestPoint, jsAt_neg_one, hw]
  · simp [currentPrice, hl]
  · simp [currentPrice, hl]
  · have hlt : ¬ (fullData stockData).length < 2 := by omega
    simp [previousPoint, jsAt_neg_two, hlt]
  · have hnone : previousPoint stockData = none := by
      simp [previousPoint, jsAt_neg_two, h2]
    refine ⟨hnone, ?_, ?_⟩
    · simp [priceChange, previousClose, hnone]
    · by_cases hc : previousClose stockData key = 0
      · simp [priceChangePercent, hc]
      · simp only [priceChangePercent, if_pos (by exact hc)]
        have : priceChange stockData key = 0 := by
          simp [priceChange, previousClose, hnone]
        simp [this]
  · have hc : previousClose stockData key = p.close := by
      simp [previousClose, hp]
    refine ⟨by simp [priceChange, hc], fun hz => ?_, fun hz => ?_⟩
    · simp [priceChangePercent, hc, hz, priceChange]
    · simp [priceChangePercent, hc, hz]

theorem latest_previous_delta_spec_witness :
    latestPoint oneData RangeKey.MAX =
      (filteredData oneData RangeKey.MAX).getLast? ∧
    priceChange oneData RangeKey.MAX =
      currentPrice oneData RangeKey.MAX - (mkCloseBar 12).close ∧
    priceChangePercent oneData RangeKey.MAX =
      (currentPrice oneData RangeKey.MAX - (mkCloseBar 12).close) /
        (mkCloseBar 12).close * 100 := by
  have h := latest_previous_delta_spec oneData RangeKey.MAX
  have hp : previousPoint oneData = some (mkCloseBar 12) := by
    simp [previousPoint, oneData, fullData, jsAt]
  have h7 := h.2.2.2.2.2.2 (mkCloseBar 12) hp
  exact ⟨h.1 (by simp [filteredData, oneData, RANGE_MAP]),
    h7.1, h7.2.1 (by norm_num [mkCloseBar])⟩

theorem hitIndex_nonneg_lt (n : ℕ) (hn : 1 ≤ n) (px : ℚ) :
    0 ≤ hitIndex n px ∧ hitIndex n px < n := by
  unfold hitIndex jsRound
  set r := (px - padding) / (width - padding * 2) with hr
  have hc0 : (0:ℚ) ≤ min 1 (max 0 r) := le_min (by norm_num) (le_max_left 0 r)
  have hc1 : min 1 (max 0 r) ≤ 1 := min_le_left _ _
  have hn1 : (0:ℚ) ≤ (n:ℚ) - 1 := by
    have : (1:ℚ) ≤ (n:ℚ) := by exact_mod_cast hn
    linarith
  have ht0 : (0:ℚ) ≤ min 1 (max 0 r) * ((n:ℚ) - 1) := mul_nonneg hc0 hn1
  have ht1 : min 1 (max 0 r) * ((n:ℚ) - 1) ≤ (n:ℚ) - 1 := by nlinarith
  constructor
  · rw [Int.le_floor]
    push_cast
    linarith
  · rw [Int.floor_lt]
    push_cast
    linarith

theorem hitIndex_projectPoint (data : List StockPoint) (i : ℕ) (b : StockPoint)
    (hi : i < data.length) :
    hitIndex data.length (projectPoint data i b).x = i := by
  unfold hitIndex projectPoint jsRound
  simp only [padding, width]
  have h608 : (640 : ℚ) - 16 * 2 = 608 := by norm_num
  rw [h608]
  have hrw : (16 + (i : ℚ) / max 1 ((data.length : ℚ) - 1) * 608 - 16) / 608 =
      (i : ℚ) / max 1 ((data.length : ℚ) - 1) := by
    field_simp
    ring
  rw [hrw]
  rcases Nat.lt_or_ge i 1 with h1 | h1
  · interval_cases i
    rcases Nat.lt_or_ge data.length 2 with h2 | h2
    · have : data.length = 1 := by omega
      rw [this]
      norm_num
    · have hM : max 1 ((data.length : ℚ) - 1) = (data.length : ℚ) - 1 := by
        apply max_eq_right
        have : (2:ℚ) ≤ (data.length : ℚ) := by exact_mod_cast h2
        linarith
      rw [hM]
      norm_num
  · have h2 : 2 ≤ data.length := by omega
    have h2q : (2:ℚ) ≤ (data.length : ℚ) := by exact_mod_cast h2
    have hpos : (0:ℚ) < (data.length : ℚ) - 1 := by linarith
    have hM : max 1 ((data.length : ℚ) - 1) = (data.length : ℚ) - 1 :=
      max_eq_right (by linarith)
    rw [hM]
    have hr0 : (0:ℚ) ≤ (i : ℚ) / ((data.length : ℚ) - 1) :=
      div_nonneg (by positivity) (le_of_lt hpos)
    have hr1 : (i : ℚ) / ((data.length : ℚ) - 1) ≤ 1 := by
      rw [div_le_one hpos]
      have : (i:ℚ) + 1 ≤ (data.length : ℚ) := by exact_mod_cast hi
      linarith
    rw [max_eq_right hr0, min_eq_right hr1,
      div_mul_cancel₀ _ (ne_of_gt hpos)]
    have : ((i:ℚ) + 1/2) = ((i:ℤ):ℚ) + 1/2 := by push_cast; ring
    rw [this, Int.floor_int_add]
    norm_num

/-- C3: hit-testing round-trip. Projecting bar `i` of a non-empty window
to its x-coordinate and feeding that x back to `handleMouseMove` (unscaled
pointer) sets the hover index to `i`; and for every pointer position
whatsoever on a non-empty window the stored index lies in `[0, n-1]`, as
the ratio is clamped to `[0, 1]` before rounding. -/
theorem hit_testing_round_trip :
    ∀ (data : List StockPoint) (st : Option ℤ),
    (∀ (i : ℕ) (p : PlotPoint), (chartPoints data)[i]? = some p →
      handleMouseMove data p.x st = some i) ∧
    (∀ pointerX : ℚ, data ≠ [] →
      ∃ j : ℤ, handleMouseMove data pointerX st = some j ∧
        0 ≤ j ∧ j < data.length) := by
  intro data st
  constructor
  · intro i p hp
    rw [chartPoints_getElem?] at hp
    obtain ⟨b, hb, hpb⟩ := Option.map_eq_some'.mp hp
    obtain ⟨hi, -⟩ := List.getElem?_eq_some.mp hb
    have hlen : ¬ (chartPoints data).length = 0 := by
      rw [chartPoints_length]
      omega
    rw [handleMouseMove, if_neg hlen, chartPoints_length, ← hpb,
      hitIndex_projectPoint data i b hi]
    rfl
  · intro pointerX hne
    have hn : 1 ≤ data.length := by
      cases data with
      | nil => exact absurd rfl hne
      | cons a t => simp
    have hlen : ¬ (chartPoints data).length = 0 := by
      rw [chartPoints_length]
      omega
    refine ⟨hitIndex data.length pointerX, ?_, ?_, ?_⟩
    · rw [handleMouseMove, if_neg hlen, chartPoints_length]
    · exact (hitIndex_nonneg_lt data.length hn pointerX).1
    · exact (hitIndex_nonneg_lt data.length hn pointerX).2

theorem hit_testing_round_trip_witness :
    handleMouseMove [mkCloseBar 10, mkCloseBar 12, mkCloseBar 9]
        ((chartPoints [mkCloseBar 10, mkCloseBar 12, mkCloseBar 9]).get
          ⟨1, by decide⟩).x none = some 1 ∧
    ∃ j : ℤ, handleMouseMove [mkCloseBar 10, mkCloseBar 12, mkCloseBar 9]
        500 none = some j ∧ 0 ≤ j ∧
        j < ([mkCloseBar 10, mkCloseBar 12, mkCloseBar 9] : List StockPoint).length := by
  constructor
  · apply (hit_testing_round_trip [mkCloseBar 10, mkCloseBar 12, mkCloseBar 9]
      none).1 1
    rw [List.get_eq_getElem, List.getElem?_eq_getElem]
  · exact (hit_testing_round_trip [mkCloseBar 10, mkCloseBar 12, mkCloseBar 9]
      none).2 500 (by simp)

theorem priceRange_pos (data : List StockPoint) (hne : data ≠ [])
    (hwf : ∀ b ∈ data, b.low ≤ b.high) : 0 < priceRange data := by
  unfold priceRange
  by_cases h : maxPrice data - minPrice data = 0
  · simp [h]
  · rw [if_neg h]
    have hle : minPrice data ≤ maxPrice data := by
      cases data with
      | nil => exact absurd rfl hne
      | cons b t =>
        calc minPrice (b :: t) ≤ b.low := by
              apply mathMin_le_mem
              simp [minPrice]
          _ ≤ b.high := hwf b (List.mem_cons_self b t)
          _ ≤ maxPrice (b :: t) := by
              apply mem_le_mathMax
              simp [maxPrice]
    rcases lt_or_eq_of_le hle with hlt | heq
    · linarith
    · exact absurd (by rw [heq]; ring) h

/-- A well-formed flat bar at price level `v`, used for concrete windows
(`low = high = close = v`). -/
def mkFlatBar (v : ℚ) : StockPoint := ⟨"", 0, v, v, v, 0⟩

/-- A malformed bar whose `high` lies below its `low` (the source accepts
such input as-is), used in the C4 counterexample. -/
def mkBadBar (close : ℚ) : StockPoint := ⟨"", 0, 0, 10, close, 0⟩

/-- C4 counterexample: the claim as stated fails on the code in two ways.
For a one-bar window (`n = 1`), bar index `n - 1 = 0` maps to
`x = padding = 16`, not `width - padding = 624`. And for a window of
malformed bars (`high < low`, which the data model permits to flow in
unvalidated), the substituted price range is negative, so a strictly
increasing close sequence yields strictly increasing, not decreasing,
y-coordinates. -/
theorem chart_projection_counterexample :
    ((chartPoints [mkFlatBar 5]).get ⟨0, by decide⟩).x ≠ width - padding ∧
    (mkBadBar 1).close < (mkBadBar 2).close ∧
    ¬ ((chartPoints [mkBadBar 1, mkBadBar 2]).get ⟨1, by decide⟩).y <
        ((chartPoints [mkBadBar 1, mkBadBar 2]).get ⟨0, by decide⟩).y := by
  refine ⟨?_, by norm_num [mkBadBar], ?_⟩
  · norm_num [chartPoints, projectPoint, mkFlatBar, padding, width]
  · norm_num [chartPoints, projectPoint, mkBadBar, padding, width, height,
      minPrice, maxPrice, priceRange, mathMin, mathMax]

/-- C4 (amended): chart projection geometry, restricted where the
counterexample forces it. On the fixed logical canvas: bar index 0 always
maps to `x = padding`; for a window of `n ≥ 2` bars, index `n - 1` maps to
`x = width - padding` and consecutive x-coordinates differ by the constant
`(width - 2 * padding) / (n - 1)` (for `n = 1` the single bar maps to
`x = padding`, covered by the first conjunct); and for a window of
well-formed bars (`low ≤ high`), any bar with a strictly larger close
projects to a strictly smaller y, so a strictly increasing close sequence
yields strictly decreasing y-coordinates. -/
theorem chart_projection_geometry : ∀ data : List StockPoint,
    (∀ p, (chartPoints data)[0]? = some p → p.x = padding) ∧
    (2 ≤ data.length →
      ∀ q, (chartPoints data)[data.length - 1]? = some q →
        q.x = width - padding) ∧
    (2 ≤ data.length → ∀ (i : ℕ) (p q : PlotPoint),
      (chartPoints data)[i]? = some p →
      (chartPoints data)[i + 1]? = some q →
      q.x - p.x = (width - 2 * padding) / ((data.length : ℚ) - 1)) ∧
    ((∀ b ∈ data, b.low ≤ b.high) →
      ∀ (i j : ℕ) (p q : PlotPoint), (chartPoints data)[i]? = some p →
        (chartPoints data)[j]? = some q →
        p.point.close < q.point.close → q.y < p.y) := by
  intro data
  have hx : ∀ (i : ℕ) (p : PlotPoint), (chartPoints data)[i]? = some p →
      p.x = padding +
        ((i : ℚ) / max 1 ((data.length : ℚ) - 1)) * (width - padding * 2) ∧
      p.point ∈ data ∧ i < data.length := by
    intro i p hp
    rw [chartPoints_getElem?] at hp
    obtain ⟨b, hb, hpb⟩ := Option.map_eq_some'.mp hp
    obtain ⟨hi, -⟩ := List.getElem?_eq_some.mp hb
    subst hpb
    exact ⟨rfl, List.getElem?_mem hb, hi⟩
  have hM : 2 ≤ data.length →
      max 1 ((data.length : ℚ) - 1) = (data.length : ℚ) - 1 := by
    intro h2
    have h2q : (2:ℚ) ≤ (data.length : ℚ) := by exact_mod_cast h2
    exact max_eq_right (by linarith)
  refine ⟨fun p hp => ?_, fun h2 q hq => ?_, fun h2 i p q hp hq => ?_,
    fun hwf i j p q hp hq hc => ?_⟩
  · rw [(hx 0 p hp).1]
    norm_num
  · rw [(hx _ q hq).1, hM h2]
    have h2q : (2:ℚ) ≤ (data.length : ℚ) := by exact_mod_cast h2
    have hcast : ((data.length - 1 : ℕ) : ℚ) = (data.length : ℚ) - 1 := by
      have h1 : 1 ≤ data.length := by omega
      push_cast [h1]
      ring
    rw [hcast, div_self (by linarith), padding, width]
    norm_num
  · rw [(hx i p hp).1, (hx (i + 1) q hq).1, hM h2]
    have h2q : (2:ℚ) ≤ (data.length : ℚ) := by exact_mod_cast h2
    have hne : (data.length : ℚ) - 1 ≠ 0 := by linarith
    field_simp
    ring
  · have hne : data ≠ [] := by
      intro h
      subst h
      simp [chartPoints] at hp
    have hR : 0 < priceRange data := priceRange_pos data hne hwf
    have hyp : p.y = height - padding -
        ((p.point.close - minPrice data) / priceRange data) *
          (height - padding * 2) := by
      rw [chartPoints_getElem?] at hp
      obtain ⟨b, hb, hpb⟩ := Option.map_eq_some'.mp hp
      subst hpb
      rfl
    have hyq : q.y = height - padding -
        ((q.point.close - minPrice data) / priceRange data) *
          (height - padding * 2) := by
      rw [chartPoints_getElem?] at hq
      obtain ⟨b, hb, hqb⟩ := Option.map_eq_some'.mp hq
      subst hqb
      rfl
    rw [hyp, hyq]
    have hdiv : (p.point.close - minPrice data) / priceRange data <
        (q.point.close - minPrice data) / priceRange data := by
      apply div_lt_div_of_pos_right _ hR
      linarith
    have hmul : (p.point.close - minPrice data) / priceRange data *
          (height - padding * 2) <
        (q.point.close - minPrice data) / priceRange data *
          (height - padding * 2) := by
      apply mul_lt_mul_of_pos_right hdiv
      norm_num [height, padding]
    linarith

theorem chart_projection_geometry_witness :
    (∀ p, (chartPoints [mkFlatBar 10, mkFlatBar 12])[0]? = some p →
      p.x = padding) ∧
    (∀ q, (chartPoints [mkFlatBar 10, mkFlatBar 12])[
        ([mkFlatBar 10, mkFlatBar 12] : List StockPoint).length - 1]? = some q →
      q.x = width - padding) ∧
    (∀ (i j : ℕ) (p q : PlotPoint),
      (chartPoints [mkFlatBar 10, mkFlatBar 12])[i]? = some p →
      (chartPoints [mkFlatBar 10, mkFlatBar 12])[j]? = some q →
      p.point.close < q.point.close → q.y < p.y) :=
  ⟨(chart_projection_geometry [mkFlatBar 10, mkFlatBar 12]).1,
   (chart_projection_geometry [mkFlatBar 10, mkFlatBar 12]).2.1 (by decide),
   (chart_projection_geometry [mkFlatBar 10, mkFlatBar 12]).2.2.2
      (by intro b hb; fin_cases hb <;> simp [mkFlatBar])⟩

/-- C10: for a non-empty window in which every bar has
`low = high = close = v`, the price range degenerates (`maxPrice =
minPrice`, substituted with 1) and every projected point has
`y = height - padding`: the whole series is drawn flat on the baseline. -/
theorem flat_window_baseline : ∀ (data : List StockPoint) (v : ℚ),
    data ≠ [] → (∀ b ∈ data, b.low = v ∧ b.high = v ∧ b.close = v) →
    ∀ p ∈ chartPoints data, p.y = height - padding := by
  intro data v hne hflat p hp
  have hmapne : data.map (fun d => d.low) ≠ [] := by
    simpa using hne
  have hmin : minPrice data = v := by
    apply le_antisymm
    · cases data with
      | nil => exact absurd rfl hne
      | cons b t =>
        have := (hflat b (List.mem_cons_self b t)).1
        calc minPrice (b :: t) ≤ b.low := by
              apply mathMin_le_mem
              simp [minPrice]
          _ = v := this
    · apply le_mathMin _ _ hmapne
      intro x hx
      obtain ⟨b, hb, hbx⟩ := List.mem_map.mp hx
      rw [← hbx, (hflat b hb).1]
  have hmax : maxPrice data = v := by
    apply le_antisymm
    · apply mathMax_le _ _ (by simpa using hne)
      intro x hx
      obtain ⟨b, hb, hbx⟩ := List.mem_map.mp hx
      rw [← hbx, (hflat b hb).2.1]
    · cases data with
      | nil => exact absurd rfl hne
      | cons b t =>
        have := (hflat b (List.mem_cons_self b t)).2.1
        calc v = b.high := this.symm
          _ ≤ maxPrice (b :: t) := by
              apply mem_le_mathMax
              simp [maxPrice]
  have hR : priceRange data = 1 := by
    simp [priceRange, hmin, hmax]
  obtain ⟨i, hi⟩ := List.mem_iff_getElem?.mp hp
  rw [chartPoints_getElem?] at hi
  obtain ⟨b, hb, hpb⟩ := Option.map_eq_some'.mp hi
  have hbv : b.close = v := (hflat b (List.getElem?_mem hb)).2.2
  subst hpb
  show height - padding -
      ((b.close - minPrice data) / priceRange data) * (height - padding * 2) =
    height - padding
  rw [hbv, hmin, hR]
  ring

theorem flat_window_baseline_witness :
    ((chartPoints [mkFlatBar 7, mkFlatBar 7, mkFlatBar 7]).get
        ⟨0, by decide⟩).y = height - padding :=
  flat_window_baseline [mkFlatBar 7, mkFlatBar 7, mkFlatBar 7] 7
    (by simp)
    (by intro b hb; fin_cases hb <;> simp [mkFlatBar])
    _ (List.get_mem _ _ _)

/-- C9: a stored hover index that is out of bounds for the current chart
points (for example one that survived a window shrink) yields no hovered
point, and then the render computes no tooltip placement and emits no
hover line, dot, or tooltip geometry; the tooltip placement is only
computed when a point exists at the hover index. -/
theorem stale_hover_safe : ∀ (data : List StockPoint) (i : ℤ),
    ((data.length : ℤ) ≤ i → hoveredPoint data (some i) = none) ∧
    (hoveredPoint data (some i) = none →
      tooltipConfig data (some i) = none ∧
      hoverGeometry data (some i) = none) := by
  intro data i
  constructor
  · intro h
    have h0 : ¬ i < 0 := by omega
    simp only [hoveredPoint, jsIndex, if_neg h0]
    rw [List.getElem?_eq_none]
    rw [chartPoints_length]
    omega
  · intro h
    exact ⟨by simp [tooltipConfig, h], by simp [hoverGeometry, h]⟩

theorem stale_hover_safe_witness :
    hoveredPoint [mkCloseBar 10] (some 5) = none ∧
    tooltipConfig [mkCloseBar 10] (some 5) = none ∧
    hoverGeometry [mkCloseBar 10] (some 5) = none := by
  have h := stale_hover_safe [mkCloseBar 10] 5
  have h1 := h.1 (by simp)
  exact ⟨h1, (h.2 h1).1, (h.2 h1).2⟩

/-- C2 counterexample: the claim that no hover index survives a re-render
with different windowed data fails on the code. `hoverIndex` is React
`useState` state of the mounted `StockChart` and nothing resets it when
the `data` prop changes. Concretely: a pointer move at `x = 624` over a
three-bar window stores hover index 2, and a subsequent re-render with a
different (one-bar) window still starts with hover index 2, not with no
hover. -/
theorem hover_reset_counterexample :
    handleMouseMove [mkCloseBar 10, mkCloseBar 12, mkCloseBar 9] 624
        initialHoverState = some 2 ∧
    rerenderHover [mkCloseBar 5] (some 2) ≠ none := by
  refine ⟨?_, by simp [rerenderHover]⟩
  have h3 : ¬ (chartPoints [mkCloseBar 10, mkCloseBar 12, mkCloseBar 9]).length
      = 0 := by
    rw [chartPoints_length]
    simp
  rw [handleMouseMove, if_neg h3, chartPoints_length]
  have hlen3 : ([mkCloseBar 10, mkCloseBar 12, mkCloseBar 9] :
      List StockPoint).length = 3 := rfl
  have h2 : hitIndex 3 624 = 2 := by
    unfold hitIndex jsRound padding width
    norm_num
  rw [hlen3, h2]

/-- C2 (amended): the hover state is not reset by a window change. A
re-render of the mounted chart with different windowed data carries the
previous hover index over unchanged; the hover state starts as `none`, is
set by pointer movement over a non-empty chart, and is cleared only by
the pointer leaving the canvas. (A stale surviving index is tolerated
downstream by rendering no hover geometry.) -/
theorem hover_persistence_spec :
    ∀ (newData : List StockPoint) (st : Option ℤ) (pointerX : ℚ),
    rerenderHover newData st = st ∧
    handleMouseLeave st = none ∧
    initialHoverState = none ∧
    (newData ≠ [] → handleMouseMove newData pointerX st =
      some (hitIndex newData.length pointerX)) := by
  intro newData st pointerX
  refine ⟨rfl, rfl, rfl, fun hne => ?_⟩
  have hlen : ¬ (chartPoints newData).length = 0 := by
    rw [chartPoints_length]
    simpa [List.length_eq_zero] using hne
  rw [handleMouseMove, if_neg hlen, chartPoints_length]

theorem hover_persistence_spec_witness :
    rerenderHover [mkCloseBar 5] (some 2) = some 2 ∧
    handleMouseMove [mkCloseBar 10, mkCloseBar 12, mkCloseBar 9] 624 none =
      some (hitIndex
        ([mkCloseBar 10, mkCloseBar 12, mkCloseBar 9] : List StockPoint).length
        624) :=
  ⟨(hover_persistence_spec [mkCloseBar 5] (some 2) 624).1,
   (hover_persistence_spec [mkCloseBar 10, mkCloseBar 12, mkCloseBar 9]
      none 624).2.2.2 (by simp)⟩

end StockSim
